import Mathlib

/-!
Verification of the litterbox monitoring system's consumer/producer core
(`src/data_persister/db_writer.py`, `src/database/postgresql_gateway.py`,
`backend/src/data_source/litterbox_edge_device_simulator.py`,
`backend/src/rabbitmq_support/rabbitmq_gateway.py`)
as a shallow embedding in Lean.

Machine conventions of the embedding:
* Python `uuid.UUID` values are 128-bit naturals (`Nat`, bound `< 2^128`);
  `str(uuid)` / `uuid.UUID(s)` are modelled character-for-character
  (lowercase hex, 8-4-4-4-12 dash grouping).
* `datetime` values are a `DateTime` structure (UTC, as everywhere in the
  source); `isoformat` / `fromisoformat` are modelled character-for-character
  on the canonical layout the codec produces.
* `time.time()` timestamps and float sensor weights are rationals (`ℚ`);
  JSON numbers round-trip exactly, matching Python's float repr guarantee.
* Payloads are modelled at the JSON AST level (`json.dumps`/`json.loads`
  are external library collaborators); a byte string that is not valid JSON
  is the `Payload.garbage` constructor.
-/

namespace Litterbox

/-! ## Decimal / hexadecimal digit strings

Machinery shared by the model of `str(uuid)` / `uuid.UUID(...)` and of
`datetime.isoformat()` / `datetime.fromisoformat(...)`. -/

/-- The character Python uses for digit value `d` (lowercase hex). -/
def digitChar : Nat → Char
  | 0 => '0' | 1 => '1' | 2 => '2' | 3 => '3' | 4 => '4'
  | 5 => '5' | 6 => '6' | 7 => '7' | 8 => '8' | 9 => '9'
  | 10 => 'a' | 11 => 'b' | 12 => 'c' | 13 => 'd' | 14 => 'e' | 15 => 'f'
  | _ => '0'

/-- Digit value of a character, computed from its code point as Python's
`int(s, base)` does (digits, then lowercase, then uppercase letters). -/
def digitVal (c : Char) : Option Nat :=
  if '0' ≤ c ∧ c ≤ '9' then some (c.toNat - '0'.toNat)
  else if 'a' ≤ c ∧ c ≤ 'f' then some (c.toNat - 'a'.toNat + 10)
  else if 'A' ≤ c ∧ c ≤ 'F' then some (c.toNat - 'A'.toNat + 10)
  else none

/-- Big-endian digits of `n` in base `base`, zero-padded to width `len`
(the behavior of Python's `'%032x' %` and `'%04d' %` style formatting). -/
def digitsBE (base : Nat) : Nat → Nat → List Nat
  | 0, _ => []
  | len + 1, n => n / base ^ len :: digitsBE base len (n % base ^ len)

/-- Zero-padded fixed-width string of `n` in base `base`. -/
def charsBE (base len n : Nat) : List Char :=
  (digitsBE base len n).map digitChar

/-- Read exactly `len` digits in base `base`, accumulating into `acc`;
returns the value and the remaining characters. -/
def parseDigitsAux (base : Nat) : Nat → Nat → List Char → Option (Nat × List Char)
  | acc, 0, cs => some (acc, cs)
  | _, _ + 1, [] => none
  | acc, len + 1, c :: cs =>
    match digitVal c with
    | some d => if d < base then parseDigitsAux base (acc * base + d) len cs else none
    | none => none

/-- Read exactly `len` digits in base `base`. -/
def parseFixed (base len : Nat) (cs : List Char) : Option (Nat × List Char) :=
  parseDigitsAux base 0 len cs

theorem digitVal_digitChar : ∀ d, d < 16 → digitVal (digitChar d) = some d := by decide

theorem digitChar_ne (c : Char) (hc : digitVal c = none) (d : Nat) : digitChar d ≠ c := by
  unfold digitChar
  split <;> intro h <;> subst h <;> exact absurd hc (by decide)

theorem acc_step (base acc n len : Nat) :
    (acc * base + n / base ^ len) * base ^ len + n % base ^ len =
      acc * base ^ (len + 1) + n := by
  have h := Nat.div_add_mod n (base ^ len)
  have h2 : (acc * base + n / base ^ len) * base ^ len + n % base ^ len
      = acc * (base ^ len * base) + (base ^ len * (n / base ^ len) + n % base ^ len) := by
    ring
  rw [h2, h, pow_succ]

theorem parseDigitsAux_charsBE (base : Nat) (hb : 2 ≤ base) (hb16 : base ≤ 16) :
    ∀ (len acc n : Nat), n < base ^ len → ∀ rest,
      parseDigitsAux base acc len (charsBE base len n ++ rest) =
        some (acc * base ^ len + n, rest) := by
  intro len
  induction len with
  | zero =>
    intro acc n hn rest
    have hn0 : n = 0 := Nat.lt_one_iff.mp (by simpa using hn)
    subst hn0
    simp [charsBE, digitsBE, parseDigitsAux]
  | succ len ih =>
    intro acc n hn rest
    have hpow : 0 < base ^ len := Nat.pos_pow_of_pos len (by omega)
    have hdlt : n / base ^ len < base := Nat.div_lt_of_lt_mul (by rwa [pow_succ] at hn)
    have hd16 : n / base ^ len < 16 := lt_of_lt_of_le hdlt hb16
    have hmod : n % base ^ len < base ^ len := Nat.mod_lt _ hpow
    rw [charsBE, digitsBE]
    simp only [List.map_cons, List.cons_append]
    rw [parseDigitsAux, digitVal_digitChar _ hd16]
    simp only [hdlt, if_true]
    rw [show (digitsBE base len (n % base ^ len)).map digitChar =
          charsBE base len (n % base ^ len) from rfl]
    rw [ih (acc * base + n / base ^ len) (n % base ^ len) hmod rest]
    rw [acc_step]

theorem parseFixed_charsBE (base : Nat) (hb : 2 ≤ base) (hb16 : base ≤ 16)
    (len n : Nat) (hn : n < base ^ len) (rest : List Char) :
    parseFixed base len (charsBE base len n ++ rest) = some (n, rest) := by
  rw [parseFixed, parseDigitsAux_charsBE base hb hb16 len 0 n hn rest, Nat.zero_mul,
    Nat.zero_add]

/-- Splitting a fixed-width parse across a width-`len1` prefix. -/
theorem parseDigitsAux_append (base : Nat) (hb : 2 ≤ base) (hb16 : base ≤ 16) :
    ∀ (len1 len2 acc n : Nat), n < base ^ len1 → ∀ rest,
      parseDigitsAux base acc (len1 + len2) (charsBE base len1 n ++ rest) =
        parseDigitsAux base (acc * base ^ len1 + n) len2 rest := by
  intro len1
  induction len1 with
  | zero =>
    intro len2 acc n hn rest
    have hn0 : n = 0 := Nat.lt_one_iff.mp (by simpa using hn)
    subst hn0
    simp [charsBE, digitsBE]
  | succ len ih =>
    intro len2 acc n hn rest
    have hpow : 0 < base ^ len := Nat.pos_pow_of_pos len (by omega)
    have hdlt : n / base ^ len < base := Nat.div_lt_of_lt_mul (by rwa [pow_succ] at hn)
    have hd16 : n / base ^ len < 16 := lt_of_lt_of_le hdlt hb16
    have hmod : n % base ^ len < base ^ len := Nat.mod_lt _ hpow
    rw [charsBE, digitsBE]
    simp only [List.map_cons, List.cons_append]
    rw [show len + 1 + len2 = (len + len2) + 1 from by omega]
    rw [parseDigitsAux, digitVal_digitChar _ hd16]
    simp only [hdlt, if_true]
    rw [show (digitsBE base len (n % base ^ len)).map digitChar =
          charsBE base len (n % base ^ len) from rfl]
    rw [ih len2 (acc * base + n / base ^ len) (n % base ^ len) hmod rest]
    rw [acc_step]

/-! ## UUID string form

`str(uuid)` produces the canonical form: 32 lowercase hex digits grouped
8-4-4-4-12 with dashes.  `uuid.UUID(s)` strips the dashes, requires exactly
32 hex digits, and reads them as a base-16 integer. -/

/-- The canonical string of a 128-bit identifier, as `str(uuid.UUID)`
prints it. -/
def uuidChars (n : Nat) : List Char :=
  charsBE 16 8 (n / 16 ^ 24) ++
    '-' :: charsBE 16 4 (n / 16 ^ 20 % 16 ^ 4) ++
    '-' :: charsBE 16 4 (n / 16 ^ 16 % 16 ^ 4) ++
    '-' :: charsBE 16 4 (n / 16 ^ 12 % 16 ^ 4) ++
    '-' :: charsBE 16 12 (n % 16 ^ 12)

def uuidToString (n : Nat) : String := ⟨uuidChars n⟩

/-- The dash-stripping the `uuid.UUID` constructor performs
(`hex.replace('-', '')`). -/
def removeDashes : List Char → List Char
  | [] => []
  | c :: cs => if c = '-' then removeDashes cs else c :: removeDashes cs

/-- `uuid.UUID(s)`: drop dashes, demand exactly 32 hex digits, read base 16.
Returns `none` where the Python constructor raises `ValueError`. -/
def uuidParseChars (cs : List Char) : Option Nat :=
  match parseFixed 16 32 (removeDashes cs) with
  | some (n, []) => some n
  | _ => none

def uuidParse (s : String) : Option Nat := uuidParseChars s.data

theorem removeDashes_append (a b : List Char) :
    removeDashes (a ++ b) = removeDashes a ++ removeDashes b := by
  induction a with
  | nil => simp [removeDashes]
  | cons c cs ih =>
    by_cases h : c = '-' <;> simp [removeDashes, h, ih]

theorem removeDashes_of_no_dash (l : List Char) (hl : ∀ c ∈ l, c ≠ '-') :
    removeDashes l = l := by
  induction l with
  | nil => rfl
  | cons c cs ih =>
    rw [removeDashes, if_neg (hl c (List.mem_cons_self c cs))]
    rw [ih fun c hc => hl c (List.mem_cons_of_mem _ hc)]

theorem removeDashes_dash_cons (l : List Char) :
    removeDashes ('-' :: l) = removeDashes l := by
  simp [removeDashes]

theorem removeDashes_charsBE (base len n : Nat) :
    removeDashes (charsBE base len n) = charsBE base len n := by
  apply removeDashes_of_no_dash
  intro c hc
  rcases List.mem_map.mp hc with ⟨d, _, rfl⟩
  exact digitChar_ne '-' (by decide) d

theorem uuid_roundtrip (n : Nat) (hn : n < 2 ^ 128) :
    uuidParse (uuidToString n) = some n := by
  have hdata : (uuidToString n).data = uuidChars n := rfl
  rw [uuidParse, hdata]
  have hfilter : removeDashes (uuidChars n) =
      charsBE 16 8 (n / 16 ^ 24) ++ (charsBE 16 4 (n / 16 ^ 20 % 16 ^ 4) ++
        (charsBE 16 4 (n / 16 ^ 16 % 16 ^ 4) ++ (charsBE 16 4 (n / 16 ^ 12 % 16 ^ 4) ++
        charsBE 16 12 (n % 16 ^ 12)))) := by
    rw [uuidChars]
    simp only [removeDashes_append, removeDashes_dash_cons, removeDashes_charsBE,
      List.append_assoc]
  rw [uuidParseChars, hfilter]
  have h16 : (2:Nat) ≤ 16 := by norm_num
  have h16' : (16:Nat) ≤ 16 := le_refl 16
  have hb1 : n / 16 ^ 24 < 16 ^ 8 := by
    rw [Nat.div_lt_iff_lt_mul (by positivity)]
    calc n < 2 ^ 128 := hn
      _ = 16 ^ 8 * 16 ^ 24 := by norm_num
  have hb5 : n % 16 ^ 12 < 16 ^ 12 := Nat.mod_lt _ (by positivity)
  have hmlt : ∀ m : Nat, m % 16 ^ 4 < 16 ^ 4 := fun m => Nat.mod_lt _ (by positivity)
  rw [parseFixed]
  rw [show (32:Nat) = 8 + 24 from rfl]
  rw [parseDigitsAux_append 16 h16 h16' 8 24 0 _ hb1]
  rw [show (24:Nat) = 4 + 20 from rfl]
  rw [parseDigitsAux_append 16 h16 h16' 4 20 _ _ (hmlt _)]
  rw [show (20:Nat) = 4 + 16 from rfl]
  rw [parseDigitsAux_append 16 h16 h16' 4 16 _ _ (hmlt _)]
  rw [show (16:Nat) = 4 + 12 from rfl]
  rw [parseDigitsAux_append 16 h16 h16' 4 12 _ _ (hmlt _)]
  rw [show charsBE 16 12 (n % 16 ^ 12) = charsBE 16 12 (n % 16 ^ 12) ++ [] from by simp]
  rw [parseDigitsAux_charsBE 16 h16 h16' 12 _ _ hb5]
  have heq : ((((0 * 16 ^ 8 + n / 16 ^ 24) * 16 ^ 4 + n / 16 ^ 20 % 16 ^ 4) * 16 ^ 4 +
      n / 16 ^ 16 % 16 ^ 4) * 16 ^ 4 + n / 16 ^ 12 % 16 ^ 4) * 16 ^ 12 +
      n % 16 ^ 12 = n := by
    have e24 : (16:Nat) ^ 24 = 16 ^ 20 * 16 ^ 4 := by norm_num
    have e20 : (16:Nat) ^ 20 = 16 ^ 16 * 16 ^ 4 := by norm_num
    have e16 : (16:Nat) ^ 16 = 16 ^ 12 * 16 ^ 4 := by norm_num
    have s1 : n / 16 ^ 24 * 16 ^ 4 + n / 16 ^ 20 % 16 ^ 4 = n / 16 ^ 20 := by
      rw [e24, ← Nat.div_div_eq_div_mul]
      have := Nat.div_add_mod (n / 16 ^ 20) (16 ^ 4)
      omega
    have s2 : n / 16 ^ 20 * 16 ^ 4 + n / 16 ^ 16 % 16 ^ 4 = n / 16 ^ 16 := by
      rw [e20, ← Nat.div_div_eq_div_mul]
      have := Nat.div_add_mod (n / 16 ^ 16) (16 ^ 4)
      omega
    have s3 : n / 16 ^ 16 * 16 ^ 4 + n / 16 ^ 12 % 16 ^ 4 = n / 16 ^ 12 := by
      rw [e16, ← Nat.div_div_eq_div_mul]
      have := Nat.div_add_mod (n / 16 ^ 12) (16 ^ 4)
      omega
    have s4 : n / 16 ^ 12 * 16 ^ 12 + n % 16 ^ 12 = n := by
      have := Nat.div_add_mod n (16 ^ 12)
      omega
    rw [Nat.zero_mul, Nat.zero_add, s1, s2, s3, s4]
  rw [heq]

/-! ## ISO-8601 timestamps

All datetimes in the pipeline are timezone-aware UTC (`datetime.now(timezone.utc)`
and offsets of it), so `isoformat()` renders
`YYYY-MM-DDTHH:MM:SS[.ffffff]+00:00` — the fractional part is omitted exactly
when `microsecond == 0`.  `datetime.fromisoformat` accepts that canonical
layout back; the consumer first does `.replace("Z", "+00:00")`, which is a
no-op on these strings (they never contain `Z`). -/

structure DateTime where
  year : Nat
  month : Nat
  day : Nat
  hour : Nat
  minute : Nat
  second : Nat
  microsecond : Nat
deriving DecidableEq, Repr

/-- Field bounds every real `datetime` satisfies (we only need the widths of
the zero-padded decimal renderings). -/
def validDT (t : DateTime) : Prop :=
  t.year < 10 ^ 4 ∧ t.month < 10 ^ 2 ∧ t.day < 10 ^ 2 ∧ t.hour < 10 ^ 2 ∧
    t.minute < 10 ^ 2 ∧ t.second < 10 ^ 2 ∧ t.microsecond < 10 ^ 6

instance (t : DateTime) : Decidable (validDT t) := by
  unfold validDT
  infer_instance

/-- The `+00:00` offset suffix of an aware-UTC `isoformat()`. -/
def tzSuffix : List Char := ['+', '0', '0', ':', '0', '0']

/-- `datetime.isoformat()` for an aware-UTC value. -/
def isoformatChars (t : DateTime) : List Char :=
  charsBE 10 4 t.year ++ '-' :: charsBE 10 2 t.month ++ '-' :: charsBE 10 2 t.day ++
    'T' :: charsBE 10 2 t.hour ++ ':' :: charsBE 10 2 t.minute ++
    ':' :: charsBE 10 2 t.second ++
    (if t.microsecond = 0 then [] else '.' :: charsBE 10 6 t.microsecond) ++ tzSuffix

def isoformat (t : DateTime) : String := ⟨isoformatChars t⟩

def expectChar (c : Char) : List Char → Option (List Char)
  | [] => none
  | x :: xs => if x = c then some xs else none

def expectStr : List Char → List Char → Option (List Char)
  | [], cs => some cs
  | p :: ps, cs =>
    match expectChar p cs with
    | some cs2 => expectStr ps cs2
    | none => none

/-- The optional `.ffffff` fraction. -/
def parseFrac (cs : List Char) : Option (Nat × List Char) :=
  match cs with
  | c :: rest => if c = '.' then parseFixed 10 6 rest else some (0, cs)
  | [] => some (0, [])

/-- Model of `datetime.fromisoformat` on the canonical aware-UTC layout the
codec emits; `none` where Python raises `ValueError`.  (Python's parser also
accepts other layouts; only this one can reach it through the pipeline.) -/
def fromisoformatChars (cs : List Char) : Option DateTime :=
  (parseFixed 10 4 cs).bind fun y =>
  (expectChar '-' y.2).bind fun cs1 =>
  (parseFixed 10 2 cs1).bind fun mo =>
  (expectChar '-' mo.2).bind fun cs2 =>
  (parseFixed 10 2 cs2).bind fun d =>
  (expectChar 'T' d.2).bind fun cs3 =>
  (parseFixed 10 2 cs3).bind fun h =>
  (expectChar ':' h.2).bind fun cs4 =>
  (parseFixed 10 2 cs4).bind fun mi =>
  (expectChar ':' mi.2).bind fun cs5 =>
  (parseFixed 10 2 cs5).bind fun s =>
  (parseFrac s.2).bind fun us =>
  (expectStr tzSuffix us.2).bind fun cs6 =>
  if cs6 = [] then some ⟨y.1, mo.1, d.1, h.1, mi.1, s.1, us.1⟩ else none

def fromisoformat (s : String) : Option DateTime := fromisoformatChars s.data

/-- `s.replace("Z", "+00:00")` as performed by the consumer before parsing. -/
def replaceZChars : List Char → List Char
  | [] => []
  | c :: cs => if c = 'Z' then '+' :: '0' :: '0' :: ':' :: '0' :: '0' :: replaceZChars cs
               else c :: replaceZChars cs

def replaceZ (s : String) : String := ⟨replaceZChars s.data⟩

theorem replaceZ_of_no_z (l : List Char) (hl : ∀ c ∈ l, c ≠ 'Z') :
    replaceZChars l = l := by
  induction l with
  | nil => rfl
  | cons c cs ih =>
    rw [replaceZChars, if_neg (hl c (List.mem_cons_self c cs))]
    rw [ih fun c hc => hl c (List.mem_cons_of_mem _ hc)]

theorem isoformatChars_no_z (t : DateTime) : ∀ c ∈ isoformatChars t, c ≠ 'Z' := by
  intro c hc
  rw [isoformatChars] at hc
  simp only [List.mem_append, List.mem_cons] at hc
  have hdig : ∀ (base len n : Nat), c ∈ charsBE base len n → c ≠ 'Z' := by
    intro base len n hmem
    rcases List.mem_map.mp hmem with ⟨d, _, rfl⟩
    exact digitChar_ne 'Z' (by decide) d
  rcases hc with ((((((h | h) | h) | h) | h) | h) | h) | h
  · exact hdig _ _ _ h
  · rcases h with h | h
    · subst h; decide
    · exact hdig _ _ _ h
  · rcases h with h | h
    · subst h; decide
    · exact hdig _ _ _ h
  · rcases h with h | h
    · subst h; decide
    · exact hdig _ _ _ h
  · rcases h with h | h
    · subst h; decide
    · exact hdig _ _ _ h
  · rcases h with h | h
    · subst h; decide
    · exact hdig _ _ _ h
  · by_cases hm : t.microsecond = 0
    · rw [if_pos hm] at h
      simp at h
    · rw [if_neg hm] at h
      rcases List.mem_cons.mp h with h | h
      · subst h; decide
      · exact hdig _ _ _ h
  · have hall : ∀ x ∈ tzSuffix, x ≠ 'Z' := by decide
    exact hall c h

theorem expectChar_cons (c : Char) (rest : List Char) :
    expectChar c (c :: rest) = some rest := by
  simp [expectChar]

theorem expectStr_append (pat rest : List Char) :
    expectStr pat (pat ++ rest) = some rest := by
  induction pat with
  | nil => rfl
  | cons p ps ih =>
    rw [List.cons_append, expectStr, expectChar_cons]
    exact ih

theorem parseFixed10 (len n : Nat) (hn : n < 10 ^ len) (rest : List Char) :
    parseFixed 10 len (charsBE 10 len n ++ rest) = some (n, rest) :=
  parseFixed_charsBE 10 (by norm_num) (by norm_num) len n hn rest

theorem expectStr_self (pat : List Char) : expectStr pat pat = some [] := by
  have h := expectStr_append pat []
  simpa using h

theorem parseFrac_tzSuffix : parseFrac tzSuffix = some (0, tzSuffix) := rfl

theorem parseFrac_dot (l : List Char) : parseFrac ('.' :: l) = parseFixed 10 6 l := rfl

theorem iso_roundtrip (t : DateTime) (ht : validDT t) :
    fromisoformatChars (isoformatChars t) = some t := by
  obtain ⟨hy, hmo, hd, hh, hmi, hs, hus⟩ := ht
  rw [isoformatChars]
  by_cases hm : t.microsecond = 0
  · rw [if_pos hm]
    simp only [List.append_assoc, List.cons_append, List.nil_append]
    simp only [fromisoformatChars, parseFixed10 4 t.year hy, parseFixed10 2 t.month hmo,
      parseFixed10 2 t.day hd, parseFixed10 2 t.hour hh, parseFixed10 2 t.minute hmi,
      parseFixed10 2 t.second hs, expectChar_cons, Option.bind, parseFrac_tzSuffix,
      expectStr_self]
    rw [if_true, ← hm]
  · rw [if_neg hm]
    simp only [List.append_assoc, List.cons_append]
    simp only [fromisoformatChars, parseFixed10 4 t.year hy, parseFixed10 2 t.month hmo,
      parseFixed10 2 t.day hd, parseFixed10 2 t.hour hh, parseFixed10 2 t.minute hmi,
      parseFixed10 2 t.second hs, expectChar_cons, Option.bind, parseFrac_dot,
      parseFixed10 6 t.microsecond hus, expectStr_self]
    rw [if_true]

/-! ## Message codec

Producer side: `LitterboxSimulator.prepare_data_for_serialization` turns the
usage dict into a JSON object (UUIDs → canonical strings, datetimes →
`isoformat()` strings, floats kept as numbers) and `json.dumps` serializes
it.  Consumer side: `LitterboxConsumer._parse_message` runs `json.loads`
and converts the `id` / `litterbox_edge_device_id` strings back to UUIDs and
the `enter_time` / `exit_time` / `created_at` strings back to datetimes.

We embed payloads at the JSON AST level: `JVal` is a JSON scalar, a payload
is either a JSON object (ordered key/value list, duplicate-free as
`json.loads` yields) or `garbage` (bytes that fail `json.loads`). -/

/-- A JSON scalar as it appears in the wire payload. -/
inductive JVal where
  | jstr (s : String)
  | jnum (q : ℚ)
deriving DecidableEq, Repr

/-- A value of the parsed message dict after `_parse_message`'s conversions. -/
inductive PVal where
  | str (s : String)
  | num (q : ℚ)
  | uuid (n : Nat)
  | time (t : DateTime)
deriving DecidableEq, Repr

/-- An incoming message body: either structurally valid JSON (an object) or
undecodable bytes. -/
inductive Payload where
  | json (kvs : List (String × JVal))
  | garbage
deriving DecidableEq, Repr

/-- Parse errors of `_parse_message`: `json.JSONDecodeError` for bodies that
are not JSON, `ValueError` (invalid field) for UUID/datetime strings that do
not parse (both are logged and re-raised by `_parse_message`). -/
inductive ParseErr where
  | malformedPayload
  | invalidField
deriving DecidableEq, Repr

/-- The event record as built by `generate_week_data` (dict of 7 fields). -/
structure UsageRecord where
  id : Nat
  litterbox_edge_device_id : Nat
  enter_time : DateTime
  exit_time : DateTime
  weight_enter : ℚ
  weight_exit : ℚ
  created_at : DateTime
deriving DecidableEq, Repr

/-- `LitterboxSimulator.prepare_data_for_serialization` followed by
`json.dumps`: UUIDs to canonical strings, datetimes to ISO strings, floats
stay numbers; key order is the dict order of `generate_week_data`. -/
def prepare_data_for_serialization (r : UsageRecord) : List (String × JVal) :=
  [("id", .jstr (uuidToString r.id)),
   ("litterbox_edge_device_id", .jstr (uuidToString r.litterbox_edge_device_id)),
   ("enter_time", .jstr (isoformat r.enter_time)),
   ("exit_time", .jstr (isoformat r.exit_time)),
   ("weight_enter", .jnum r.weight_enter),
   ("weight_exit", .jnum r.weight_exit),
   ("created_at", .jstr (isoformat r.created_at))]

def encodeRecord (r : UsageRecord) : Payload :=
  .json (prepare_data_for_serialization r)

/-- The per-key conversion `_parse_message` applies to one dict entry.
(The Python code mutates the dict by key lookup; on the duplicate-free dicts
`json.loads` produces, that is the same as converting each entry in place.)
A non-string value under `id` raises in `uuid.UUID(...)`; a non-string value
under a datetime key is left untouched (the `isinstance(..., str)` guard). -/
def convertEntry (e : String × JVal) : Except ParseErr (String × PVal) :=
  if e.1 = "id" ∨ e.1 = "litterbox_edge_device_id" then
    match e.2 with
    | .jstr s =>
      match uuidParse s with
      | some n => .ok (e.1, .uuid n)
      | none => .error .invalidField
    | .jnum _ => .error .invalidField
  else if e.1 = "enter_time" ∨ e.1 = "exit_time" ∨ e.1 = "created_at" then
    match e.2 with
    | .jstr s =>
      match fromisoformat (replaceZ s) with
      | some t => .ok (e.1, .time t)
      | none => .error .invalidField
    | .jnum q => .ok (e.1, .num q)
  else
    match e.2 with
    | .jstr s => .ok (e.1, .str s)
    | .jnum q => .ok (e.1, .num q)

/-- Convert all entries, stopping at the first failure (the Python loop
raises out of `_parse_message` at the first bad field). -/
def convertEntries : List (String × JVal) → Except ParseErr (List (String × PVal))
  | [] => .ok []
  | e :: es =>
    match convertEntry e with
    | .ok pe =>
      match convertEntries es with
      | .ok pes => .ok (pe :: pes)
      | .error er => .error er
    | .error er => .error er

/-- `LitterboxConsumer._parse_message`. -/
def parseMessage : Payload → Except ParseErr (List (String × PVal))
  | .garbage => .error .malformedPayload
  | .json kvs => convertEntries kvs

/-- The parsed-dict image of a record: what `_parse_message` hands back for a
faithfully encoded record (`decode(encode(r)) == r` at dict level). -/
def recordToDict (r : UsageRecord) : List (String × PVal) :=
  [("id", .uuid r.id),
   ("litterbox_edge_device_id", .uuid r.litterbox_edge_device_id),
   ("enter_time", .time r.enter_time),
   ("exit_time", .time r.exit_time),
   ("weight_enter", .num r.weight_enter),
   ("weight_exit", .num r.weight_exit),
   ("created_at", .time r.created_at)]

/-- A record whose identifiers are 128-bit and whose timestamps are real
datetime field values. -/
def wellFormedRecord (r : UsageRecord) : Prop :=
  r.id < 2 ^ 128 ∧ r.litterbox_edge_device_id < 2 ^ 128 ∧
    validDT r.enter_time ∧ validDT r.exit_time ∧ validDT r.created_at

instance (r : UsageRecord) : Decidable (wellFormedRecord r) := by
  unfold wellFormedRecord
  infer_instance

theorem fromisoformat_replaceZ_isoformat (t : DateTime) (ht : validDT t) :
    fromisoformat (replaceZ (isoformat t)) = some t := by
  have hnoz : replaceZChars (isoformatChars t) = isoformatChars t :=
    replaceZ_of_no_z _ (isoformatChars_no_z t)
  have hdata : (replaceZ (isoformat t)).data = isoformatChars t := by
    rw [replaceZ]
    rw [show (isoformat t).data = isoformatChars t from rfl]
    rw [hnoz]
  rw [fromisoformat, hdata]
  exact iso_roundtrip t ht

/-! ## Batch accumulation policy (`db_writer.py`)

`message_batch` is the ordered list of `(parsed dict, delivery tag)` pairs;
`last_batch_time` and the current `time.time()` are rationals. -/

/-- A parsed message dict. -/
abbrev MsgDict : Type := List (String × PVal)

/-- `BATCH_SIZE = int(os.getenv("BATCH_SIZE", "10"))` — the default. -/
def BATCH_SIZE : Nat := 10

/-- `BATCH_TIMEOUT = int(os.getenv("BATCH_TIMEOUT", "30"))` — the default. -/
def BATCH_TIMEOUT : ℚ := 30

/-- `PREFETCH_COUNT = int(os.getenv("PREFETCH_COUNT", "50"))` — the default. -/
def PREFETCH_COUNT : Nat := 50

/-- `LitterboxConsumer._should_process_batch`:
`batch_full or (self.message_batch and batch_timeout)`. -/
def should_process_batch (batch : List (MsgDict × Nat)) (now last : ℚ) : Bool :=
  decide (batch.length ≥ BATCH_SIZE) ||
    (!batch.isEmpty && decide (now - last ≥ BATCH_TIMEOUT))

/-! ## Store gateway (`postgresql_gateway.py`)

The store is the list of committed rows (dicts).  `insert_litterbox_usage_data`
opens one transaction, checks each record's `id` against the store, stages the
insert, and commits once at the end; any failure leaves the store unchanged
(the `with self.session` scope never reaches `commit`). -/

/-- Errors raised out of `insert_litterbox_usage_data`: the explicit
`ValueError` for an existing id (carrying that id), or a `KeyError` from
`record["id"]` when a record lacks the key. -/
inductive DBErr where
  | duplicateRecord (id : PVal)
  | keyError
deriving DecidableEq, Repr

/-- `self.session.query(LitterboxUsageData).filter_by(id=v).first()` against
a row list. -/
def hasExistingRecord (rows : List MsgDict) (v : PVal) : Bool :=
  rows.any (fun row => row.lookup "id" = some v)

/-- The per-record loop of `insert_litterbox_usage_data`: look up `id`,
raise on an existing record, otherwise stage the insert.  The existence
query sees committed rows and (through the session's autoflush) the records
staged earlier in the same transaction. -/
def stageRecords (store : List MsgDict) : List MsgDict → List MsgDict →
    Except DBErr (List MsgDict)
  | staged, [] => .ok staged
  | staged, r :: rs =>
    match r.lookup "id" with
    | none => .error .keyError
    | some v =>
      if hasExistingRecord (store ++ staged) v then .error (.duplicateRecord v)
      else stageRecords store (staged ++ [r]) rs

/-- Outcome of one `insert_litterbox_usage_data` call: the store afterwards,
how many times the transaction committed, and the raised error if any. -/
structure InsertOutcome where
  store : List MsgDict
  commits : Nat
  error : Option DBErr
deriving Repr

/-- `PostgreSQLGateway.insert_litterbox_usage_data`: stage every record,
then commit once; an error abandons the transaction (store unchanged,
zero commits) and re-raises. -/
def insert_litterbox_usage_data (store : List MsgDict) (data : List MsgDict) :
    InsertOutcome :=
  match stageRecords store [] data with
  | .ok staged => { store := store ++ staged, commits := 1, error := none }
  | .error e => { store := store, commits := 0, error := some e }

/-! ## Consumer write cycle and delivery callback (`db_writer.py`) -/

/-- A broker acknowledgment action issued on the channel
(`basic_ack` / `basic_nack(requeue=...)`). -/
inductive BrokerAction where
  | ack (tag : Nat)
  | nack (tag : Nat) (requeue : Bool)
deriving DecidableEq, Repr

/-- State after `process_batch`: the store, the actions sent to the broker
in order, the commit count, the error the `except` block logged (the error
is swallowed there — it never propagates out of `process_batch`), and the
`finally`-updated batch and `last_batch_time`. -/
structure ProcessBatchResult where
  store : List MsgDict
  actions : List BrokerAction
  commits : Nat
  loggedError : Option DBErr
  message_batch : List (MsgDict × Nat)
  last_batch_time : ℚ
deriving Repr

/-- `LitterboxConsumer.process_batch`.  On insert success every delivery tag
is acknowledged individually in batch (= drain) order; on any insert failure
every tag is nacked with `requeue=True`; the `finally` block clears the
batch and resets `last_batch_time` to now.  An empty batch returns at once. -/
def process_batch (store : List MsgDict) (batch : List (MsgDict × Nat))
    (last now : ℚ) : ProcessBatchResult :=
  if batch.isEmpty then
    { store := store, actions := [], commits := 0, loggedError := none,
      message_batch := batch, last_batch_time := last }
  else
    let db_records := batch.map Prod.fst
    let ins := insert_litterbox_usage_data store db_records
    match ins.error with
    | none =>
      { store := ins.store, actions := batch.map (fun p => .ack p.2),
        commits := ins.commits, loggedError := none,
        message_batch := [], last_batch_time := now }
    | some e =>
      { store := store, actions := batch.map (fun p => .nack p.2 true),
        commits := 0, loggedError := some e,
        message_batch := [], last_batch_time := now }

/-- State after one invocation of the delivery callback. -/
structure CallbackResult where
  store : List MsgDict
  message_batch : List (MsgDict × Nat)
  actions : List BrokerAction
  commits : Nat
  loggedError : Option DBErr
  last_batch_time : ℚ
deriving Repr

/-- `LitterboxConsumer.store_batch_to_db` (the `basic_consume` callback):
parse the body; on success append `(dict, delivery_tag)` to the batch and
run `process_batch` if `_should_process_batch()`; on a parse exception nack
that single delivery with `requeue=True`. -/
def store_batch_to_db (store : List MsgDict) (batch : List (MsgDict × Nat))
    (last now : ℚ) (body : Payload) (delivery_tag : Nat) : CallbackResult :=
  match parseMessage body with
  | .ok d =>
    let batch2 := batch ++ [(d, delivery_tag)]
    if should_process_batch batch2 now last then
      let r := process_batch store batch2 last now
      { store := r.store, message_batch := r.message_batch, actions := r.actions,
        commits := r.commits, loggedError := r.loggedError,
        last_batch_time := r.last_batch_time }
    else
      { store := store, message_batch := batch2, actions := [], commits := 0,
        loggedError := none, last_batch_time := last }
  | .error _ =>
    { store := store, message_batch := batch,
      actions := [.nack delivery_tag true], commits := 0, loggedError := none,
      last_batch_time := last }

/-! ## Broker topology (`rabbitmq_gateway.py` constants and
`LitterboxConsumer.setup_rabbitmq`) -/

def EXCHANGE_NAME : String := "litterbox_events"
def EXCHANGE_TYPE : String := "fanout"
def ROUTING_KEY : String := "litterbox.usage"
def QUEUE_NAME : String := "litterbox_usage_queue"

structure ExchangeDecl where
  exchange : String
  exchange_type : String
  durable : Bool
deriving DecidableEq, Repr

structure QueueDecl where
  queue : String
  durable : Bool
  exclusive : Bool
  auto_delete : Bool
deriving DecidableEq, Repr

structure QueueBindDecl where
  exchange : String
  queue : String
  routing_key : String
deriving DecidableEq, Repr

structure RabbitmqSetup where
  exchangeDecl : ExchangeDecl
  queueDecl : QueueDecl
  bindDecl : QueueBindDecl
  prefetch_count : Nat
deriving DecidableEq, Repr

/-- The declarations `LitterboxConsumer.setup_rabbitmq` issues on the
channel, in the source's literal arguments.  Note the consumer passes the
string literal `"topic"` as the exchange type rather than the shared
`EXCHANGE_TYPE` constant the producer uses. -/
def setup_rabbitmq : RabbitmqSetup :=
  { exchangeDecl := { exchange := EXCHANGE_NAME, exchange_type := "topic",
                      durable := true },
    queueDecl := { queue := QUEUE_NAME, durable := true, exclusive := false,
                   auto_delete := false },
    bindDecl := { exchange := EXCHANGE_NAME, queue := QUEUE_NAME,
                  routing_key := ROUTING_KEY },
    prefetch_count := PREFETCH_COUNT }

/-! ## Producer batch processing (`litterbox_edge_device_simulator.py`)

`process_data` is parameterized by whether the broker connection can be
established (`get_rabbitmq_connection` raising `AMQPConnectionError` or not)
and by which records' `publish_to_rabbitmq` calls succeed.  File writes
(`save_data_to_file`) are modelled as succeeding. -/

structure ProcessDataResult (α : Type) where
  /-- Records whose publish succeeded, in batch order. -/
  published : List α
  /-- Contents of each fallback/backup file written, in write order. -/
  fallbackFiles : List (List α)
  /-- Whether an exception propagates to the caller. -/
  raised : Bool
deriving Repr

/-- `LitterboxSimulator.process_data`.  When the connection succeeds, each
record is attempted in turn (a per-record failure is logged and the loop
continues); afterwards the whole original batch is saved as a backup file
only `if successful_publishes > 0`.  When the connection fails
(`AMQPConnectionError`), the whole batch is saved to the fallback file.
No path re-raises (the two `except` arms swallow and fall back to file
storage). -/
def process_data {α : Type} (connOk : Bool) (pubOk : α → Bool) (data : List α) :
    ProcessDataResult α :=
  if connOk then
    let published := data.filter pubOk
    { published := published,
      fallbackFiles := if published.length > 0 then [data] else [],
      raised := false }
  else
    { published := [], fallbackFiles := [data], raised := false }

/-! ## Simulator data generation (`litterbox_edge_device_simulator.py`)

The random draws (`random.uniform`, `random.normalvariate`, `random.random`)
are passed in as rational parameters constrained to the intervals the source
draws them from. -/

def EMPTY_LITTERBOX_WEIGHT : ℚ := 5

/-- Python's `round(x, 1)` (to one decimal; any round-half-to-nearest tie
rule satisfies the `|round1 q - q| ≤ 1/20` bound used below). -/
def round1 (q : ℚ) : ℚ := (round (q * 10) : ℤ) / 10

/-- The draws consumed by one `generate_weight_data` call:
`litter ∈ [17.6, 33.1]`, `cat ∈ [6.6, 13.2]`, `visit ∈ [0, 1)` from
`random.random()`, `urine ∈ [0.011, 0.033]`, `feces ∈ [0.022, 0.066]`. -/
structure WeightDraw where
  litter : ℚ
  cat : ℚ
  visit : ℚ
  urine : ℚ
  feces : ℚ
deriving Repr

def validWeightDraw (w : WeightDraw) : Prop :=
  17.6 ≤ w.litter ∧ w.litter ≤ 33.1 ∧
  6.6 ≤ w.cat ∧ w.cat ≤ 13.2 ∧
  0 ≤ w.visit ∧ w.visit < 1 ∧
  0.011 ≤ w.urine ∧ w.urine ≤ 0.033 ∧
  0.022 ≤ w.feces ∧ w.feces ≤ 0.066

instance (w : WeightDraw) : Decidable (validWeightDraw w) := by
  unfold validWeightDraw
  infer_instance

/-- The waste-weight branch of `generate_weight_data` (70% urine only, 25%
both, 5% feces only). -/
def waste_weight (w : WeightDraw) : ℚ :=
  if w.visit < 0.70 then w.urine
  else if w.visit < 0.95 then w.urine + w.feces
  else w.feces

/-- `LitterboxSimulator.generate_weight_data`: enter weight is box + litter
+ cat, exit weight is box + litter + waste, both rounded to 0.1 lb. -/
def generate_weight_data (w : WeightDraw) : ℚ × ℚ :=
  let weight_enter := EMPTY_LITTERBOX_WEIGHT + w.litter + w.cat
  let weight_exit := EMPTY_LITTERBOX_WEIGHT + w.litter + waste_weight w
  (round1 weight_enter, round1 weight_exit)

/-- `LitterboxSimulator.generate_session_duration`: the normal draw `d` is
clamped to `[30, 300]` seconds and truncated with `int(...)` (equal to the
floor since the clamped value is positive). -/
def generate_session_duration (d : ℚ) : Int :=
  ⌊max 30 (min 300 d)⌋

/-- One simulated usage record, with times on an absolute timeline in
seconds (datetime arithmetic `enter_time + timedelta(seconds=n)`). -/
structure SimUsage where
  enter_time : Int
  exit_time : Int
  weight_enter : ℚ
  weight_exit : ℚ
deriving Repr

/-- The body of `generate_week_data`'s inner loop for one usage time. -/
def makeUsageRecord (enterTime : Int) (d : ℚ) (w : WeightDraw) : SimUsage :=
  let exitTime := enterTime + generate_session_duration d
  let weights := generate_weight_data w
  { enter_time := enterTime, exit_time := exitTime,
    weight_enter := weights.1, weight_exit := weights.2 }

/-- `LitterboxSimulator.generate_week_data` over its stream of usage times
and random draws: one record per (usage time, duration draw, weight draw)
triple. -/
def generate_week_data (draws : List (Int × ℚ × WeightDraw)) : List SimUsage :=
  draws.map (fun t => makeUsageRecord t.1 t.2.1 t.2.2)

/-! ## Lemmas about the staging loop of the batch writer -/

theorem hasExistingRecord_append (a b : List MsgDict) (v : PVal) :
    hasExistingRecord (a ++ b) v = (hasExistingRecord a v || hasExistingRecord b v) := by
  simp [hasExistingRecord, List.any_append]

theorem hasExistingRecord_singleton (r : MsgDict) (v : PVal) :
    hasExistingRecord [r] v = decide (r.lookup "id" = some v) := by
  simp [hasExistingRecord]

/-- If every record's id is fresh for the store and for the already-staged
records, and the batch ids are pairwise distinct, the staging loop stages
all records in order. -/
theorem stageRecords_ok (store : List MsgDict) :
    ∀ (rs staged : List MsgDict),
      (∀ r ∈ rs, ∃ v, r.lookup "id" = some v ∧ hasExistingRecord store v = false ∧
        hasExistingRecord staged v = false) →
      (rs.map (fun r => r.lookup "id")).Nodup →
      stageRecords store staged rs = .ok (staged ++ rs) := by
  intro rs
  induction rs with
  | nil =>
    intro staged _ _
    simp [stageRecords]
  | cons r rs ih =>
    intro staged hfresh hnodup
    obtain ⟨v, hv, hstore, hstaged⟩ := hfresh r (List.mem_cons_self r rs)
    rw [List.map_cons, List.nodup_cons] at hnodup
    have hfresh2 : ∀ r2 ∈ rs, ∃ v2, r2.lookup "id" = some v2 ∧
        hasExistingRecord store v2 = false ∧
        hasExistingRecord (staged ++ [r]) v2 = false := by
      intro r2 hr2
      obtain ⟨v2, hv2, hstore2, hstaged2⟩ :=
        hfresh r2 (List.mem_cons_of_mem _ hr2)
      refine ⟨v2, hv2, hstore2, ?_⟩
      rw [hasExistingRecord_append, hstaged2, hasExistingRecord_singleton]
      have hne : r.lookup "id" ≠ some v2 := by
        rw [hv]
        intro hcontra
        apply hnodup.1
        rw [hv, hcontra, ← hv2]
        exact List.mem_map_of_mem (fun r => r.lookup "id") hr2
      simp [hne]
    simp only [stageRecords, hv]
    rw [if_neg (by rw [hasExistingRecord_append, hstore, hstaged]; simp)]
    rw [ih (staged ++ [r]) hfresh2 hnodup.2]
    simp

/-- If every record has an id, batch ids are pairwise distinct, no batch id
collides with the already-staged records, and some batch id already exists
in the store, the staging loop raises `DuplicateRecord` carrying an id that
is both a batch id and a store id. -/
theorem stageRecords_dup (store : List MsgDict) :
    ∀ (rs staged : List MsgDict),
      (∀ r ∈ rs, (r.lookup "id").isSome) →
      (rs.map (fun r => r.lookup "id")).Nodup →
      (∀ r ∈ rs, ∀ v, r.lookup "id" = some v → hasExistingRecord staged v = false) →
      (∃ r ∈ rs, ∃ v, r.lookup "id" = some v ∧ hasExistingRecord store v = true) →
      ∃ v, stageRecords store staged rs = .error (.duplicateRecord v) ∧
        (∃ r ∈ rs, r.lookup "id" = some v) ∧ hasExistingRecord store v = true := by
  intro rs
  induction rs with
  | nil =>
    intro staged _ _ _ hdup
    simp at hdup
  | cons r rs ih =>
    intro staged hids hnodup hstaged hdup
    obtain ⟨v, hv⟩ := Option.isSome_iff_exists.mp (hids r (List.mem_cons_self r rs))
    rw [List.map_cons, List.nodup_cons] at hnodup
    by_cases hcol : hasExistingRecord (store ++ staged) v = true
    · have hstagedv : hasExistingRecord staged v = false :=
        hstaged r (List.mem_cons_self r rs) v hv
      have hstorev : hasExistingRecord store v = true := by
        rw [hasExistingRecord_append, hstagedv] at hcol
        simpa using hcol
      refine ⟨v, ?_, ⟨r, List.mem_cons_self r rs, hv⟩, hstorev⟩
      simp only [stageRecords, hv]
      rw [if_pos hcol]
    · have hx : hasExistingRecord (store ++ staged) v = false := by
        simpa using hcol
      rw [hasExistingRecord_append] at hx
      have hstorev : hasExistingRecord store v = false := (Bool.or_eq_false_iff.mp hx).1
      have hdup2 : ∃ r2 ∈ rs, ∃ v2, r2.lookup "id" = some v2 ∧
          hasExistingRecord store v2 = true := by
        obtain ⟨r2, hmem, v2, hv2, hst2⟩ := hdup
        rcases List.mem_cons.mp hmem with heq | hmem2
        · subst heq
          rw [hv] at hv2
          cases hv2
          rw [hstorev] at hst2
          cases hst2
        · exact ⟨r2, hmem2, v2, hv2, hst2⟩
      have hstaged2 : ∀ r2 ∈ rs, ∀ v2, r2.lookup "id" = some v2 →
          hasExistingRecord (staged ++ [r]) v2 = false := by
        intro r2 h2 v2 hv2
        rw [hasExistingRecord_append, hstaged r2 (List.mem_cons_of_mem _ h2) v2 hv2,
          hasExistingRecord_singleton]
        have hne : r.lookup "id" ≠ some v2 := by
          rw [hv]
          intro hcontra
          apply hnodup.1
          rw [hv, hcontra, ← hv2]
          exact List.mem_map_of_mem (fun r => r.lookup "id") h2
        simp [hne]
      obtain ⟨v3, heq3, ⟨r3, hmem3, hv3⟩, hst3⟩ :=
        ih (staged ++ [r]) (fun r2 h2 => hids r2 (List.mem_cons_of_mem _ h2))
          hnodup.2 hstaged2 hdup2
      refine ⟨v3, ?_, ⟨r3, List.mem_cons_of_mem _ hmem3, hv3⟩, hst3⟩
      simp only [stageRecords, hv]
      rw [if_neg hcol]
      exact heq3

/-! ## Claim theorems -/

/-- C3: for every well-formed event record (128-bit ids, real datetime
fields, rational weights), decoding the encoded wire payload yields exactly
the record's parsed dict: `decode(encode(r)) == r`. -/
theorem c3_encode_decode_roundtrip (r : UsageRecord) (h : wellFormedRecord r) :
    parseMessage (encodeRecord r) = .ok (recordToDict r) := by
  obtain ⟨hid, hdev, het, hxt, hct⟩ := h
  have hu1 := uuid_roundtrip r.id hid
  have hu2 := uuid_roundtrip r.litterbox_edge_device_id hdev
  have h1 := fromisoformat_replaceZ_isoformat r.enter_time het
  have h2 := fromisoformat_replaceZ_isoformat r.exit_time hxt
  have h3 := fromisoformat_replaceZ_isoformat r.created_at hct
  simp [parseMessage, encodeRecord, prepare_data_for_serialization, convertEntries,
    convertEntry, recordToDict, hu1, hu2, h1, h2, h3]

/-- A concrete well-formed record (ids are 128-bit values, timestamps
realistic). -/
def sampleRecord : UsageRecord :=
  { id := 0x0123456789abcdef0123456789abcdef,
    litterbox_edge_device_id := 0x12345678123456789012123456789abc,
    enter_time := ⟨2025, 3, 14, 6, 30, 0, 0⟩,
    exit_time := ⟨2025, 3, 14, 6, 32, 15, 0⟩,
    weight_enter := 31.4,
    weight_exit := 24.9,
    created_at := ⟨2025, 3, 21, 0, 0, 5, 123456⟩ }

theorem c3_encode_decode_roundtrip_witness :
    wellFormedRecord sampleRecord ∧
      parseMessage (encodeRecord sampleRecord) = .ok (recordToDict sampleRecord) :=
  ⟨by decide, c3_encode_decode_roundtrip sampleRecord (by decide)⟩

/-- C4: the readiness check is true exactly when the batch length reaches
`BATCH_SIZE` (default 10) or the batch is non-empty and at least
`BATCH_TIMEOUT` (default 30) time-units elapsed since the batch started; in
particular one record at elapsed time 29 is not ready and at 31 is ready. -/
theorem c4_should_process_batch_iff :
    (∀ (batch : List (MsgDict × Nat)) (now last : ℚ),
        should_process_batch batch now last = true ↔
          (BATCH_SIZE ≤ batch.length ∨ (batch ≠ [] ∧ BATCH_TIMEOUT ≤ now - last))) ∧
    BATCH_SIZE = 10 ∧ BATCH_TIMEOUT = 30 ∧
    should_process_batch [([], 1)] 29 0 = false ∧
    should_process_batch [([], 1)] 31 0 = true := by
  refine ⟨?_, rfl, rfl,
    by norm_num [should_process_batch, BATCH_SIZE, BATCH_TIMEOUT],
    by norm_num [should_process_batch, BATCH_SIZE, BATCH_TIMEOUT]⟩
  intro batch now last
  simp [should_process_batch, List.isEmpty_iff, ge_iff_le, and_comm]

/-- C7: when the broker connection cannot be established before the batch
starts, `process_data` writes the entire batch (exactly its records) to a
single fallback file, publishes nothing, and raises nothing to its caller. -/
theorem c7_connection_failure_fallback {α : Type} (pubOk : α → Bool) (data : List α) :
    (process_data false pubOk data).fallbackFiles = [data] ∧
    (process_data false pubOk data).published = [] ∧
    (process_data false pubOk data).raised = false := by
  simp [process_data]

/-- C8: the topology the consumer declares.  Queue name/durability/
exclusivity/auto-delete, binding with routing key `litterbox.usage`, and
the default prefetch 50 all match the declared contract, but the exchange is
declared with the literal type `"topic"`, not the shared `EXCHANGE_TYPE`
(`"fanout"`) the producer declares for the same exchange name. -/
theorem c8_topology_exchange_type_mismatch :
    setup_rabbitmq.exchangeDecl.exchange = "litterbox_events" ∧
    setup_rabbitmq.exchangeDecl.durable = true ∧
    setup_rabbitmq.exchangeDecl.exchange_type = "topic" ∧
    EXCHANGE_TYPE = "fanout" ∧
    setup_rabbitmq.exchangeDecl.exchange_type ≠ EXCHANGE_TYPE ∧
    setup_rabbitmq.queueDecl = { queue := "litterbox_usage_queue", durable := true,
                                 exclusive := false, auto_delete := false } ∧
    setup_rabbitmq.bindDecl = { exchange := "litterbox_events",
                                queue := "litterbox_usage_queue",
                                routing_key := "litterbox.usage" } ∧
    setup_rabbitmq.prefetch_count = 50 := by
  refine ⟨rfl, rfl, rfl, rfl, by decide, rfl, rfl, rfl⟩

/-- C1: a batch write where some record's id already exists in the store
commits nothing (the transaction is abandoned), leaves the store unchanged,
nacks every delivery handle of the batch with `requeue=True`, and logs a
`DuplicateRecord` error carrying an offending id (an id of a batch record
that exists in the store).  The error is swallowed by `process_batch`'s
`except` block — `process_batch` is a total function into `ProcessBatchResult`
with the error only in `loggedError`, so it never propagates out of the
consumer loop. -/
theorem c1_duplicate_rejects_whole_batch (store : List MsgDict)
    (batch : List (MsgDict × Nat)) (last now : ℚ)
    (hids : ∀ p ∈ batch, ((p.1).lookup "id").isSome)
    (hnodup : (batch.map (fun p => (p.1).lookup "id")).Nodup)
    (hdup : ∃ p ∈ batch, ∃ v, (p.1).lookup "id" = some v ∧
      hasExistingRecord store v = true) :
    (process_batch store batch last now).commits = 0 ∧
    (process_batch store batch last now).store = store ∧
    (process_batch store batch last now).actions =
      batch.map (fun p => BrokerAction.nack p.2 true) ∧
    ∃ v, (process_batch store batch last now).loggedError =
        some (.duplicateRecord v) ∧
      (∃ p ∈ batch, (p.1).lookup "id" = some v) ∧
      hasExistingRecord store v = true := by
  have hne : batch ≠ [] := by
    rintro rfl
    simp at hdup
  have hemp : batch.isEmpty = false := by
    cases batch with
    | nil => exact absurd rfl hne
    | cons a l => rfl
  obtain ⟨v, herr, hvin, hst⟩ := stageRecords_dup store (batch.map Prod.fst) []
    (by
      intro r hr
      obtain ⟨p, hp, rfl⟩ := List.mem_map.mp hr
      exact hids p hp)
    (by
      rw [List.map_map]
      exact hnodup)
    (fun r _ v _ => rfl)
    (by
      obtain ⟨p, hp, v, hv, hsv⟩ := hdup
      exact ⟨p.1, List.mem_map_of_mem Prod.fst hp, v, hv, hsv⟩)
  have hins : insert_litterbox_usage_data store (batch.map Prod.fst) =
      { store := store, commits := 0, error := some (.duplicateRecord v) } := by
    rw [insert_litterbox_usage_data, herr]
  have hvin2 : ∃ p ∈ batch, (p.1).lookup "id" = some v := by
    obtain ⟨r, hr, hv⟩ := hvin
    obtain ⟨p, hp, rfl⟩ := List.mem_map.mp hr
    exact ⟨p, hp, hv⟩
  have hpb : process_batch store batch last now =
      { store := store, actions := batch.map (fun p => BrokerAction.nack p.2 true),
        commits := 0, loggedError := some (.duplicateRecord v),
        message_batch := [], last_batch_time := now } := by
    simp only [process_batch, hemp, Bool.false_eq_true, if_false, hins]
  rw [hpb]
  exact ⟨rfl, rfl, rfl, v, rfl, hvin2, hst⟩

/-- A store holding one committed row with id 2, and a two-record batch
whose second record collides with it. -/
def dupStore : List MsgDict := [[("id", PVal.uuid 2)]]

def dupBatch : List (MsgDict × Nat) :=
  [([("id", PVal.uuid 1)], 11), ([("id", PVal.uuid 2)], 12)]

theorem c1_duplicate_rejects_whole_batch_witness :
    (process_batch dupStore dupBatch 0 0).commits = 0 ∧
    (process_batch dupStore dupBatch 0 0).store = dupStore ∧
    (process_batch dupStore dupBatch 0 0).actions =
      [BrokerAction.nack 11 true, BrokerAction.nack 12 true] := by
  obtain ⟨h1, h2, h3, _⟩ := c1_duplicate_rejects_whole_batch dupStore dupBatch 0 0
    (by decide) (by decide)
    ⟨([("id", PVal.uuid 2)], 12), by decide, PVal.uuid 2, by decide, by decide⟩
  refine ⟨h1, h2, ?_⟩
  rw [h3]
  rfl

/-- C5: a non-empty batch of records with ids that are pairwise distinct and
absent from the store commits the transaction exactly once and then
acknowledges every delivery handle individually, in drained (offer) order;
the batch is cleared. -/
theorem c5_unique_batch_single_commit_acks (store : List MsgDict)
    (batch : List (MsgDict × Nat)) (last now : ℚ)
    (hne : batch ≠ [])
    (hfresh : ∀ p ∈ batch, ∃ v, (p.1).lookup "id" = some v ∧
      hasExistingRecord store v = false)
    (hnodup : (batch.map (fun p => (p.1).lookup "id")).Nodup) :
    (process_batch store batch last now).commits = 1 ∧
    (process_batch store batch last now).actions =
      batch.map (fun p => BrokerAction.ack p.2) ∧
    (process_batch store batch last now).store = store ++ batch.map Prod.fst ∧
    (process_batch store batch last now).message_batch = [] ∧
    (process_batch store batch last now).loggedError = none := by
  have hemp : batch.isEmpty = false := by
    cases batch with
    | nil => exact absurd rfl hne
    | cons a l => rfl
  have hok := stageRecords_ok store (batch.map Prod.fst) []
    (by
      intro r hr
      obtain ⟨p, hp, rfl⟩ := List.mem_map.mp hr
      obtain ⟨v, hv, hsv⟩ := hfresh p hp
      exact ⟨v, hv, hsv, rfl⟩)
    (by
      rw [List.map_map]
      exact hnodup)
  rw [List.nil_append] at hok
  have hins : insert_litterbox_usage_data store (batch.map Prod.fst) =
      { store := store ++ batch.map Prod.fst, commits := 1, error := none } := by
    rw [insert_litterbox_usage_data, hok]
  have hpb : process_batch store batch last now =
      { store := store ++ batch.map Prod.fst,
        actions := batch.map (fun p => BrokerAction.ack p.2),
        commits := 1, loggedError := none,
        message_batch := [], last_batch_time := now } := by
    simp only [process_batch, hemp, Bool.false_eq_true, if_false, hins]
  rw [hpb]
  exact ⟨rfl, rfl, rfl, rfl, rfl⟩

def freshBatch : List (MsgDict × Nat) :=
  [([("id", PVal.uuid 3)], 21), ([("id", PVal.uuid 4)], 22)]

theorem c5_unique_batch_single_commit_acks_witness :
    (process_batch dupStore freshBatch 0 0).commits = 1 ∧
    (process_batch dupStore freshBatch 0 0).actions =
      [BrokerAction.ack 21, BrokerAction.ack 22] ∧
    (process_batch dupStore freshBatch 0 0).message_batch = [] := by
  obtain ⟨h1, h2, _, h4, _⟩ := c5_unique_batch_single_commit_acks dupStore freshBatch 0 0
    (by decide)
    (by
      intro p hp
      rcases List.mem_cons.mp hp with rfl | hp2
      · exact ⟨PVal.uuid 3, rfl, by decide⟩
      · rcases List.mem_cons.mp hp2 with rfl | hp3
        · exact ⟨PVal.uuid 4, rfl, by decide⟩
        · simp at hp3)
    (by decide)
  refine ⟨h1, ?_, h4⟩
  rw [h2]
  rfl

/-- C2, counterexample: the claim says a malformed delivery is rejected
WITHOUT requeue; the code's callback `except` arm calls
`basic_nack(..., requeue=True)`, so the single nack issued for an
undecodable payload carries `requeue = true`, not `requeue = false`
(the "not added to the batch" part does hold). -/
theorem c2_requeue_counterexample :
    (store_batch_to_db [] [] 0 0 Payload.garbage 7).actions =
      [BrokerAction.nack 7 true] ∧
    (store_batch_to_db [] [] 0 0 Payload.garbage 7).actions ≠
      [BrokerAction.nack 7 false] ∧
    (store_batch_to_db [] [] 0 0 Payload.garbage 7).message_batch = [] :=
  ⟨rfl, by decide, rfl⟩

/-- C2 amended: for every delivery whose payload fails to decode, the
callback rejects that single delivery WITH a requeue request (the broker
will redeliver it), and the message is not added to the batch; the store is
untouched and nothing is committed. -/
theorem c2_decode_failure_single_nack (store : List MsgDict)
    (batch : List (MsgDict × Nat)) (last now : ℚ) (body : Payload) (tag : Nat)
    (h : ∃ e, parseMessage body = .error e) :
    (store_batch_to_db store batch last now body tag).actions =
      [BrokerAction.nack tag true] ∧
    (store_batch_to_db store batch last now body tag).message_batch = batch ∧
    (store_batch_to_db store batch last now body tag).store = store ∧
    (store_batch_to_db store batch last now body tag).commits = 0 := by
  obtain ⟨e, he⟩ := h
  simp [store_batch_to_db, he]

theorem c2_decode_failure_single_nack_witness :
    (store_batch_to_db [] [] 0 0 Payload.garbage 3).actions =
      [BrokerAction.nack 3 true] ∧
    (store_batch_to_db [] [] 0 0 Payload.garbage 3).message_batch = [] :=
  ⟨(c2_decode_failure_single_nack [] [] 0 0 Payload.garbage 3
      ⟨.malformedPayload, rfl⟩).1,
   (c2_decode_failure_single_nack [] [] 0 0 Payload.garbage 3
      ⟨.malformedPayload, rfl⟩).2.1⟩

/-- A well-formed JSON payload with no `enter_time` field, and its parse. -/
def payloadNoEnterTime : Payload :=
  .json [("id", .jstr (uuidToString 5)), ("weight_enter", .jnum 3)]

def dictNoEnterTime : MsgDict :=
  [("id", PVal.uuid 5), ("weight_enter", PVal.num 3)]

/-- C9, counterexample: the claim says decoding a payload missing
`enter_time` fails with `InvalidField` and the delivery is rejected; in the
code `_parse_message` only converts datetime fields that are PRESENT
(`if field in message_data`), so the payload decodes successfully, no
rejection is issued, and the message IS added to the batch. -/
theorem c9_missing_enter_time_counterexample :
    parseMessage payloadNoEnterTime = .ok dictNoEnterTime ∧
    (store_batch_to_db [] [] 0 0 payloadNoEnterTime 4).message_batch =
      [(dictNoEnterTime, 4)] ∧
    (store_batch_to_db [] [] 0 0 payloadNoEnterTime 4).actions = [] := by
  have hparse : parseMessage payloadNoEnterTime = .ok dictNoEnterTime := rfl
  have hnr : should_process_batch [(dictNoEnterTime, 4)] (0:ℚ) (0:ℚ) = false := by
    norm_num [should_process_batch, BATCH_SIZE, BATCH_TIMEOUT]
  refine ⟨hparse, ?_, ?_⟩ <;>
    simp [store_batch_to_db, hparse, hnr]

/-- C9 amended: a payload that is well-formed JSON with `enter_time` absent
still decodes successfully (no `InvalidField`); the delivery is NOT rejected
at decode time and the message IS counted toward the next batch (a failure
for the missing column can only surface later, at the database write). -/
theorem c9_missing_enter_time_joins_batch (store : List MsgDict)
    (batch : List (MsgDict × Nat)) (last now : ℚ)
    (kvs : List (String × JVal)) (tag : Nat) (d : MsgDict)
    (_hmiss : "enter_time" ∉ kvs.map Prod.fst)
    (hparse : parseMessage (.json kvs) = .ok d)
    (hnr : should_process_batch (batch ++ [(d, tag)]) now last = false) :
    (store_batch_to_db store batch last now (.json kvs) tag).message_batch =
      batch ++ [(d, tag)] ∧
    (store_batch_to_db store batch last now (.json kvs) tag).actions = [] ∧
    (store_batch_to_db store batch last now (.json kvs) tag).commits = 0 := by
  simp [store_batch_to_db, hparse, hnr]

theorem c9_missing_enter_time_joins_batch_witness :
    (store_batch_to_db [] [] 0 0 payloadNoEnterTime 4).message_batch =
      [] ++ [(dictNoEnterTime, 4)] ∧
    (store_batch_to_db [] [] 0 0 payloadNoEnterTime 4).actions = [] :=
  have h := c9_missing_enter_time_joins_batch [] [] 0 0
    [("id", .jstr (uuidToString 5)), ("weight_enter", .jnum 3)] 4 dictNoEnterTime
    (by decide) rfl
    (by norm_num [should_process_batch, BATCH_SIZE, BATCH_TIMEOUT])
  ⟨h.1, h.2.1⟩

/-- C6, counterexample: the claim says the entire original batch is always
persisted to the fallback file after attempting the batch; but the backup
write is guarded by `if successful_publishes > 0`, so when connectivity is
up and every publish fails, no fallback file is written and the batch's
records are dropped (neither published nor in any file). -/
theorem c6_all_publishes_fail_counterexample :
    (process_data true (fun _ : Nat => false) [7]).published = [] ∧
    (process_data true (fun _ : Nat => false) [7]).fallbackFiles = [] ∧
    (7 : Nat) ∈ [7] := by
  refine ⟨rfl, ?_, by decide⟩
  simp [process_data]

/-- C6 amended: a per-record publish failure does not abort the batch and is
not raised to the caller; when the connection fails outright the whole batch
goes to the fallback file, and when the connection succeeds the whole
original batch (not just failures) is backed up to a file provided at least
one record published; under either of those conditions no record is dropped.
(When the connection succeeds and every publish fails, no file is written.) -/
theorem c6_no_record_lost_amended {α : Type} (connOk : Bool) (pubOk : α → Bool)
    (data : List α) :
    (process_data connOk pubOk data).raised = false ∧
    (connOk = false → (process_data connOk pubOk data).fallbackFiles = [data]) ∧
    (connOk = true → (process_data connOk pubOk data).published = data.filter pubOk) ∧
    (connOk = true → data.any pubOk = true →
      (process_data connOk pubOk data).fallbackFiles = [data]) ∧
    (∀ r ∈ data, (connOk = false ∨ data.any pubOk = true) →
      r ∈ (process_data connOk pubOk data).published ∨
        ∃ f ∈ (process_data connOk pubOk data).fallbackFiles, r ∈ f) := by
  cases connOk with
  | false =>
    refine ⟨rfl, fun _ => rfl, fun h => absurd h (by decide), fun h => absurd h (by decide), ?_⟩
    intro r hr _
    exact Or.inr ⟨data, by simp [process_data], hr⟩
  | true =>
    have hfile : data.any pubOk = true →
        (process_data true pubOk data).fallbackFiles = [data] := by
      intro hany
      obtain ⟨x, hx, hpx⟩ := List.any_eq_true.mp hany
      have hmem : x ∈ data.filter pubOk := List.mem_filter.mpr ⟨hx, hpx⟩
      have hpos : 0 < (data.filter pubOk).length :=
        List.length_pos.mpr (List.ne_nil_of_mem hmem)
      simp [process_data, hpos]
    refine ⟨rfl, fun h => absurd h (by decide), fun _ => rfl, fun _ => hfile, ?_⟩
    intro r hr hcase
    rcases hcase with h | hany
    · exact absurd h (by decide)
    · exact Or.inr ⟨data, by rw [hfile hany]; exact List.mem_singleton_self data, hr⟩

theorem c6_no_record_lost_amended_witness :
    (process_data true (fun n : Nat => decide (n % 2 = 1)) [1, 2]).fallbackFiles =
      [[1, 2]] ∧
    (process_data true (fun n : Nat => decide (n % 2 = 1)) [1, 2]).raised = false :=
  ⟨(c6_no_record_lost_amended true (fun n : Nat => decide (n % 2 = 1))
      [1, 2]).2.2.2.1 rfl (by decide),
   (c6_no_record_lost_amended true (fun n : Nat => decide (n % 2 = 1)) [1, 2]).1⟩

/-- C10: every record the week-data generator produces has `exit_time`
strictly after `enter_time` — the session duration is clamped to 30..300
seconds — and `weight_exit` strictly below `weight_enter` (the cat weight,
at least 6.6 lbs, is replaced by at most 0.099 lbs of waste; both weights
rounded to one decimal). -/
theorem c10_week_data_invariants (draws : List (Int × ℚ × WeightDraw))
    (h : ∀ x ∈ draws, validWeightDraw x.2.2) :
    ∀ rec ∈ generate_week_data draws,
      rec.enter_time < rec.exit_time ∧
      30 ≤ rec.exit_time - rec.enter_time ∧
      rec.exit_time - rec.enter_time ≤ 300 ∧
      rec.weight_exit < rec.weight_enter := by
  intro rec hmem
  obtain ⟨x, hx, rfl⟩ := List.mem_map.mp hmem
  obtain ⟨hl1, hl2, hc1, hc2, hv1, hv2, hu1, hu2, hf1, hf2⟩ := h x hx
  have hdur1 : (30:ℤ) ≤ generate_session_duration x.2.1 := by
    rw [generate_session_duration, Int.le_floor]
    calc ((30:ℤ):ℚ) = 30 := by norm_num
      _ ≤ max 30 (min 300 x.2.1) := le_max_left _ _
  have hdur2 : generate_session_duration x.2.1 ≤ 300 := by
    rw [generate_session_duration]
    have h300 : max 30 (min 300 x.2.1) ≤ (300:ℚ) :=
      max_le (by norm_num) (min_le_left _ _)
    calc ⌊max 30 (min 300 x.2.1)⌋ ≤ ⌊(300:ℚ)⌋ := Int.floor_le_floor h300
      _ = 300 := by norm_num
  have hwaste1 : waste_weight x.2.2 ≤ 0.099 := by
    rw [waste_weight]
    split_ifs <;> linarith
  have hround1 := abs_sub_round ((EMPTY_LITTERBOX_WEIGHT + x.2.2.litter + x.2.2.cat) * 10)
  have hround2 :=
    abs_sub_round ((EMPTY_LITTERBOX_WEIGHT + x.2.2.litter + waste_weight x.2.2) * 10)
  rw [abs_le] at hround1 hround2
  refine ⟨?_, ?_, ?_, ?_⟩
  · simp only [makeUsageRecord]
    omega
  · simp only [makeUsageRecord]
    omega
  · simp only [makeUsageRecord]
    omega
  · simp only [makeUsageRecord, generate_weight_data, round1]
    have h10 : (0:ℚ) < 10 := by norm_num
    rw [div_lt_div_iff₀ h10 h10]
    have hlt : (round ((EMPTY_LITTERBOX_WEIGHT + x.2.2.litter + waste_weight x.2.2) * 10) : ℚ)
        < (round ((EMPTY_LITTERBOX_WEIGHT + x.2.2.litter + x.2.2.cat) * 10) : ℚ) := by
      linarith [hround1.1, hround1.2, hround2.1, hround2.2]
    exact by linarith [hlt]

def sampleDraws : List (Int × ℚ × WeightDraw) :=
  [(86400, 120, ⟨20, 7, 1/2, 1/50, 3/100⟩)]

theorem c10_week_data_invariants_witness :
    (makeUsageRecord 86400 120 ⟨20, 7, 1/2, 1/50, 3/100⟩).enter_time <
      (makeUsageRecord 86400 120 ⟨20, 7, 1/2, 1/50, 3/100⟩).exit_time ∧
    (makeUsageRecord 86400 120 ⟨20, 7, 1/2, 1/50, 3/100⟩).weight_exit <
      (makeUsageRecord 86400 120 ⟨20, 7, 1/2, 1/50, 3/100⟩).weight_enter :=
  have h := c10_week_data_invariants sampleDraws
    (by
      intro x hx
      simp only [sampleDraws, List.mem_singleton] at hx
      subst hx
      norm_num [validWeightDraw])
    (makeUsageRecord 86400 120 ⟨20, 7, 1/2, 1/50, 3/100⟩)
    (by
      simp only [generate_week_data, sampleDraws, List.map_cons, List.map_nil]
      exact List.mem_singleton_self _)
  ⟨h.1, h.2.2.2⟩

end Litterbox
